import Mathlib

/-!
Shallow embedding of the padel-match CSV analysis pipeline: the two
`parseCSVData` variants (the match-analytics screen and the dashboard
screen), the hit-count tally, the temporal sampler and the spatial
density ("heatmap") sampler.  JavaScript numbers are idealised as `ℚ`
(so NaN is `Option.none` and floating-point rounding, overflow and the
`Infinity` literal are outside the model); JS strings are Lean `String`s.
-/

namespace Vibora

/-! ### JS numeric string parsing (`parseFloat` / `parseInt`), idealised -/

/-- Leading-whitespace skip performed by `parseFloat`/`parseInt`. -/
def jsSkipWs (cs : List Char) : List Char := cs.dropWhile Char.isWhitespace

/-- Value of a decimal digit character. -/
def digitVal (c : Char) : ℕ := c.toNat - 48

/-- Value of a string of decimal digits, most significant first. -/
def digitsToNat (cs : List Char) : ℕ := cs.foldl (fun n c => 10 * n + digitVal c) 0

/-- Optional sign, as a rational factor together with the rest of the input. -/
def readSign : List Char → ℚ × List Char
  | '-' :: rest => (-1, rest)
  | '+' :: rest => (1, rest)
  | cs => (1, cs)

/-- Optional sign, as an integer factor together with the rest of the input. -/
def readIntSign : List Char → ℤ × List Char
  | '-' :: rest => (-1, rest)
  | '+' :: rest => (1, rest)
  | cs => (1, cs)

/-- Exponent digits after `e`/`E`; an `e` not followed by digits is ignored
(JS `parseFloat` takes the longest valid numeric prefix). -/
def readExpTail (cs : List Char) : ℤ :=
  let sc := readIntSign cs
  let ds := sc.2.takeWhile Char.isDigit
  if ds.isEmpty then 0 else sc.1 * (digitsToNat ds : ℤ)

/-- Exponent part of a JS float literal, `0` when absent or malformed. -/
def readExp : List Char → ℤ
  | 'e' :: rest => readExpTail rest
  | 'E' :: rest => readExpTail rest
  | _ => 0

/-- JS `parseFloat`, idealised over `ℚ`: longest numeric prefix after
whitespace and an optional sign; `none` models `NaN`. -/
def parseFloatQ (s : String) : Option ℚ :=
  let cs := jsSkipWs s.data
  let sc := readSign cs
  let ip := sc.2.takeWhile Char.isDigit
  let cs2 := sc.2.dropWhile Char.isDigit
  let fploc : List Char × List Char :=
    match cs2 with
    | '.' :: rest => (rest.takeWhile Char.isDigit, rest.dropWhile Char.isDigit)
    | _ => ([], cs2)
  if ip.isEmpty && fploc.1.isEmpty then none
  else
    let mant : ℚ := (digitsToNat ip : ℚ) + (digitsToNat fploc.1 : ℚ) / ((10 : ℚ) ^ fploc.1.length)
    some (sc.1 * mant * (10 : ℚ) ^ readExp fploc.2)

/-- JS `parseInt` with base-10 semantics: longest digit prefix after
whitespace and an optional sign; `none` models `NaN`. -/
def parseIntZ (s : String) : Option ℤ :=
  let cs := jsSkipWs s.data
  let sc := readIntSign cs
  let ds := sc.2.takeWhile Char.isDigit
  if ds.isEmpty then none else some (sc.1 * (digitsToNat ds : ℤ))

/-- `Number.prototype.toFixed(2)` followed by re-parsing: round to the
nearest hundredth, ties towards the larger value. -/
def round2 (q : ℚ) : ℚ := ((⌊q * 100 + 1 / 2⌋ : ℤ) : ℚ) / 100

/-! ### CSV splitting and column resolution -/

/-- Split a character list at every occurrence of `sep` (JS
`String.prototype.split` with a single-character separator). -/
def splitOnChar (sep : Char) : List Char → List (List Char)
  | [] => [[]]
  | c :: rest =>
    match splitOnChar sep rest with
    | [] => [[c]]
    | grp :: grps => if c = sep then [] :: grp :: grps else (c :: grp) :: grps

/-- `s.split(sep)` for a one-character separator. -/
def jsSplit (sep : Char) (s : String) : List String :=
  (splitOnChar sep s.data).map (fun cs => String.mk cs)

/-- `s.trim()`: strip whitespace from both ends. -/
def jsTrim (s : String) : String :=
  String.mk (((s.data.dropWhile Char.isWhitespace).reverse.dropWhile Char.isWhitespace).reverse)

/-- `csvText.trim().split('\n')`. -/
def splitLines (t : String) : List String := jsSplit '\n' (jsTrim t)

/-- `lines[0].split(',')`: the header fields. -/
def headersOf (t : String) : List String := jsSplit ',' ((splitLines t).headD "")

/-- The data rows (`lines[1..]`), each split on commas. -/
def dataRowsOf (t : String) : List (List String) :=
  ((splitLines t).drop 1).map (fun l => jsSplit ',' l)

/-- Lower-casing used on both sides of the header comparison. -/
def jsToLower (s : String) : String := String.mk (s.data.map Char.toLower)

/-- `headers.findIndex(h => h.trim().toLowerCase() === name.toLowerCase())`,
carrying the index reached so far. -/
def findColumnFrom (name : String) : List String → ℤ → ℤ
  | [], _ => -1
  | h :: rest, k =>
    if jsToLower (jsTrim h) == jsToLower name then k else findColumnFrom name rest (k + 1)

/-- Column resolution: first matching header index, `-1` when absent. -/
def findColumn (hs : List String) (name : String) : ℤ := findColumnFrom name hs 0

/-- `values[idx]`: `none` models JS `undefined` (negative or out-of-range index). -/
def getCell (vs : List String) (idx : ℤ) : Option String :=
  if idx < 0 then none else vs.get? idx.toNat

/-- `parseFloat(values[idx])` with `none` for `NaN`. -/
def cellFloat (vs : List String) (idx : ℤ) : Option ℚ :=
  (getCell vs idx).bind parseFloatQ

/-- `values[idx] && !isNaN(parseFloat(values[idx]))` guarded variant: the
cell must be truthy (present and non-empty) before parsing. -/
def cellFloatGuarded (vs : List String) (idx : ℤ) : Option ℚ :=
  match getCell vs idx with
  | some s => if s = "" then none else parseFloatQ s
  | none => none

/-! ### Per-column accumulation (the `push`-based row loop) -/

/-- The mutable-array accumulation pattern `if (ok) arr.push(v)` over the
row loop, as a left fold. -/
def pushCollect (f : List String → Option ℚ) (rows : List (List String)) : List ℚ :=
  rows.foldl (fun acc vs => acc ++ (f vs).toList) []

/-- `arr.reduce((sum, v) => sum + v, 0)`. -/
def jsSum (l : List ℚ) : ℚ := l.foldl (· + ·) 0

/-- `len > 0 ? sum / len : 0`. -/
def jsMean (l : List ℚ) : ℚ := if 0 < l.length then jsSum l / (l.length : ℚ) else 0

/-- `len > 0 ? Math.max(...l) : 0`. -/
def jsMaxOr0 (l : List ℚ) : ℚ :=
  match l with
  | [] => 0
  | x :: xs => xs.foldl max x

/-- Rows paired with their 1-based line index (`for (let i = 1; ...)`). -/
def withIndexFrom (n : ℕ) : List α → List (ℕ × α)
  | [] => []
  | x :: xs => (n, x) :: withIndexFrom (n + 1) xs

/-! ### Ball-hit tally (`playerHitCounts`) -/

/-- The four-slot mutable array `playerHitCounts = [0, 0, 0, 0]`. -/
structure HitCounts where
  c1 : ℕ
  c2 : ℕ
  c3 : ℕ
  c4 : ℕ
deriving Repr, DecidableEq

/-- `playerHitCounts[k - 1]` for player number `k` in `1..4`. -/
def HitCounts.tally (c : HitCounts) (k : ℤ) : ℕ :=
  if k = 1 then c.c1 else if k = 2 then c.c2 else if k = 3 then c.c3
  else if k = 4 then c.c4 else 0

/-- `playerHitCounts[k - 1]++`. -/
def HitCounts.bump (c : HitCounts) (k : ℤ) : HitCounts :=
  if k = 1 then { c with c1 := c.c1 + 1 } else if k = 2 then { c with c2 := c.c2 + 1 }
  else if k = 3 then { c with c3 := c.c3 + 1 } else if k = 4 then { c with c4 := c.c4 + 1 }
  else c

/-- `parseInt(values[hitIdx].trim())` after the truthiness check on the cell. -/
def rowHitValue (hitIdx : ℤ) (vs : List String) : Option ℤ :=
  match getCell vs hitIdx with
  | some s => if s = "" then none else parseIntZ (jsTrim s)
  | none => none

/-- Per-row update: increment slot `ph - 1` when the parsed value `ph` lies in `1..4`. -/
def hitStep (hitIdx : ℤ) (c : HitCounts) (vs : List String) : HitCounts :=
  match rowHitValue hitIdx vs with
  | some k => if 1 ≤ k ∧ k ≤ 4 then c.bump k else c
  | none => c

/-- The full tally over all data rows. -/
def hitCounts (hitIdx : ℤ) (rows : List (List String)) : HitCounts :=
  rows.foldl (hitStep hitIdx) ⟨0, 0, 0, 0⟩

/-! ### Temporal sampler (analytics variant) -/

/-- `seconds.toString().padStart(2, '0')` for `seconds < 60`. -/
def padSeconds (n : ℕ) : String := (if n < 10 then "0" else "") ++ toString n

/-- `minutes:seconds` label from the 1-based row index, at an assumed 30 fps. -/
def fmtTime (i : ℕ) : String :=
  toString (((i - 1) / 30) / 60) ++ ":" ++ padSeconds (((i - 1) / 30) % 60)

/-- One entry of `ballVelocityOverTime`. -/
structure BallSample where
  time : String
  velocity : ℚ
  acceleration : ℚ
deriving Repr, DecidableEq

/-- The sampler's per-row decision: a row at index `i` yields an entry only
when `i % 10 === 0`, both ball columns exist, and both fields parse. -/
def sampleStep (velIdx accIdx : ℤ) (i : ℕ) (vs : List String) : Option BallSample :=
  if i % 10 = 0 ∧ velIdx ≠ -1 ∧ accIdx ≠ -1 then
    match cellFloat vs velIdx, cellFloat vs accIdx with
    | some v, some a => some ⟨fmtTime i, round2 v, round2 a⟩
    | _, _ => none
  else none

/-- `ballVelocityOverTime`, accumulated over the indexed row loop. -/
def ballVelocityOverTime (velIdx accIdx : ℤ) (rows : List (List String)) : List BallSample :=
  (withIndexFrom 1 rows).foldl
    (fun acc p => acc ++ (sampleStep velIdx accIdx p.1 p.2).toList) []

/-! ### Spatial density sampler (heatmaps) -/

/-- A court-relative position `{x, y}`. -/
structure Pos where
  x : ℚ
  y : ℚ
deriving Repr, DecidableEq

/-- A heatmap point: position plus intensity. -/
structure HeatPt where
  x : ℚ
  y : ℚ
  intensity : ℚ
deriving Repr, DecidableEq

/-- `Math.sqrt((p.x-q.x)^2 + (p.y-q.y)^2) <= r`, stated without the square
root (equivalent for the non-negative radii the code uses). -/
def nearb (r : ℚ) (p q : Pos) : Bool :=
  decide ((p.x - q.x) ^ 2 + (p.y - q.y) ^ 2 ≤ r ^ 2)

/-- Raw local density: number of points of the set (self included) within
the radius. -/
def rawCount (r : ℚ) (pts : List Pos) (p : Pos) : ℕ :=
  (pts.filter (nearb r p)).length

/-- First pass: each point with its raw neighbour count as intensity. -/
def rawHeat (r : ℚ) (pts : List Pos) : List HeatPt :=
  pts.map (fun p => ⟨p.x, p.y, (rawCount r pts p : ℚ)⟩)

/-- `Math.max(...data.map(d => d.intensity))`; the `0` base only matters for
the empty list, where the code never reads the value. -/
def maxIntensity (l : List HeatPt) : ℚ := (l.map HeatPt.intensity).foldr max 0

/-- Player-heatmap normalisation: divide by the maximum only when it is
positive, otherwise keep the raw counts (the guard wraps the whole map). -/
def playerHeatmap (r : ℚ) (pts : List Pos) : List HeatPt :=
  if 0 < maxIntensity (rawHeat r pts) then
    (rawHeat r pts).map (fun d => ⟨d.x, d.y, d.intensity / maxIntensity (rawHeat r pts)⟩)
  else rawHeat r pts

/-- Ball/ball-hit heatmap normalisation: the positivity guard sits inside
the map, defaulting to intensity `0`. -/
def ballHeatmap (r : ℚ) (pts : List Pos) : List HeatPt :=
  (rawHeat r pts).map
    (fun d => ⟨d.x, d.y,
      if 0 < maxIntensity (rawHeat r pts) then d.intensity / maxIntensity (rawHeat r pts)
      else 0⟩)

/-! ### Analytics-variant `parseCSVData` -/

/-- The requested player distance column names, in player order. -/
def playerDistColumns : List String :=
  ["player1_distance", "player2_distance", "player3_distance", "player4_distance"]

/-- The requested player velocity column names, in player order. -/
def playerVelColumns : List String :=
  ["player1_Vnorm", "player2_Vnorm", "player3_Vnorm", "player4_Vnorm"]

/-- Player x-position column names. -/
def playerXColumns : List String := ["player1_x", "player2_x", "player3_x", "player4_x"]

/-- Player y-position column names. -/
def playerYColumns : List String := ["player1_y", "player2_y", "player3_y", "player4_y"]

/-- `columns.map(findIndex).filter(i => i !== -1)`: the present columns,
compacted — slot `p` of the subsequent `forEach` gets the `p`-th PRESENT
column, not necessarily player `p + 1`'s own column. -/
def presentIndices (hs : List String) (cols : List String) : List ℤ :=
  (cols.map (findColumn hs)).filter (fun i => i ≠ -1)

/-- The numeric list accumulated for slot `p` (unguarded `parseFloat`, as in
the player distance/velocity loops). -/
def slotValues (hs : List String) (rows : List (List String)) (cols : List String)
    (p : ℕ) : List ℚ :=
  match (presentIndices hs cols).get? p with
  | some idx => pushCollect (fun vs => cellFloat vs idx) rows
  | none => []

/-- Both coordinates present (truthy) and parseable, else no position. -/
def rowPos (xi yi : ℤ) (vs : List String) : Option Pos :=
  match getCell vs xi, getCell vs yi with
  | some sx, some sy =>
    if sx ≠ "" ∧ sy ≠ "" then
      match parseFloatQ sx, parseFloatQ sy with
      | some xv, some yv => some ⟨xv, yv⟩
      | _, _ => none
    else none
  | _, _ => none

/-- Position stream of player `p` (0-based); the x/y index arrays are NOT
compacted, so positions stay aligned with the player. -/
def playerPositions (hs : List String) (rows : List (List String)) (p : ℕ) : List Pos :=
  rows.filterMap
    (rowPos (findColumn hs (playerXColumns.getD p "")) (findColumn hs (playerYColumns.getD p "")))

/-- Ball position stream. -/
def ballPositionsOf (hs : List String) (rows : List (List String)) : List Pos :=
  rows.filterMap (rowPos (findColumn hs "ball_x") (findColumn hs "ball_y"))

/-- Ball-hit positions: rows with a parsed ball position whose `ball_hit`
cell is truthy and parses to exactly `1`. -/
def ballHitPositionsOf (hs : List String) (rows : List (List String)) : List Pos :=
  rows.filterMap (fun vs =>
    match rowPos (findColumn hs "ball_x") (findColumn hs "ball_y") vs with
    | some pos =>
      match getCell vs (findColumn hs "ball_hit") with
      | some s => if s ≠ "" ∧ parseFloatQ s = some 1 then some pos else none
      | none => none
    | none => none)

/-- Per-player summary record of the analytics variant. -/
structure CSVPlayerData where
  totalDistance : ℚ
  avgVelocity : ℚ
  maxVelocity : ℚ
  hitCount : ℕ
  positionData : List Pos
deriving Repr, DecidableEq

/-- Ball summary record of the analytics variant. -/
structure CSVBallData where
  totalDistance : ℚ
  avgVelocity : ℚ
  maxVelocity : ℚ
  avgAcceleration : ℚ
  bounceCount : ℚ
  velocityOverTime : List BallSample
  positionData : List Pos
  hitPositions : List Pos
deriving Repr, DecidableEq

/-- The `players` array computed from successfully fetched CSV text. -/
def analyticsPlayers (t : String) : List CSVPlayerData :=
  (List.range 4).map (fun p =>
    { totalDistance := jsSum (slotValues (headersOf t) (dataRowsOf t) playerDistColumns p)
      avgVelocity := jsMean (slotValues (headersOf t) (dataRowsOf t) playerVelColumns p)
      maxVelocity := jsMaxOr0 (slotValues (headersOf t) (dataRowsOf t) playerVelColumns p)
      hitCount :=
        (hitCounts (findColumn (headersOf t) "player_ball_hit") (dataRowsOf t)).tally (p + 1)
      positionData := playerPositions (headersOf t) (dataRowsOf t) p })

/-- The ball record computed from successfully fetched CSV text. -/
def analyticsBall (t : String) : CSVBallData :=
  { totalDistance :=
      jsSum (pushCollect
        (fun vs => cellFloatGuarded vs (findColumn (headersOf t) "ball_distance")) (dataRowsOf t))
    avgVelocity :=
      jsMean (pushCollect
        (fun vs => cellFloatGuarded vs (findColumn (headersOf t) "ball_vnorm")) (dataRowsOf t))
    maxVelocity :=
      jsMaxOr0 (pushCollect
        (fun vs => cellFloatGuarded vs (findColumn (headersOf t) "ball_vnorm")) (dataRowsOf t))
    avgAcceleration :=
      jsMean (pushCollect
        (fun vs => cellFloatGuarded vs (findColumn (headersOf t) "ball_anorm")) (dataRowsOf t))
    bounceCount :=
      jsSum (pushCollect
        (fun vs => cellFloatGuarded vs (findColumn (headersOf t) "ball_bounce")) (dataRowsOf t))
    velocityOverTime :=
      ballVelocityOverTime (findColumn (headersOf t) "ball_vnorm")
        (findColumn (headersOf t) "ball_anorm") (dataRowsOf t)
    positionData := ballPositionsOf (headersOf t) (dataRowsOf t)
    hitPositions := ballHitPositionsOf (headersOf t) (dataRowsOf t) }

/-- The all-zero ball record returned by the `catch` branch. -/
def emptyBallData : CSVBallData := ⟨0, 0, 0, 0, 0, [], [], []⟩

/-- Return value of the analytics-variant `parseCSVData`. -/
structure AnalyticsResult where
  players : List CSVPlayerData
  ball : CSVBallData
deriving Repr, DecidableEq

/-- Analytics-variant `parseCSVData`; `none` models a failed fetch (network
throw), which lands in the `catch` branch. -/
def analyticsParseCSVData : Option String → AnalyticsResult
  | none => ⟨[], emptyBallData⟩
  | some t => ⟨analyticsPlayers t, analyticsBall t⟩

/-! ### Dashboard-variant `parseCSVData` -/

/-- `['Player 1', 'Player 2', 'Player 3', 'Player 4']`. -/
def playerNamesList : List String := ["Player 1", "Player 2", "Player 3", "Player 4"]

/-- One dashboard chart entry: dynamic keys modelled as an association list
in assignment order. -/
structure DashEntry where
  time : String
  playerVals : List (String × ℚ)
deriving Repr, DecidableEq

/-- Return value of the dashboard-variant `parseCSVData`. -/
structure ChartData where
  velocityOverTime : List DashEntry
  playerHitsData : List (String × ℕ)
  playerNames : List String
deriving Repr, DecidableEq

/-- Dashboard sampler: `for (let i = 1; i < lines.length; i += 10)` pushes
an entry for EVERY visited row, with `parseFloat(...) || 0` zero-fill. -/
def dashboardVelocityOverTime (hs : List String) (rows : List (List String)) : List DashEntry :=
  ((withIndexFrom 1 rows).filter (fun p => p.1 % 10 = 1)).map (fun p =>
    ⟨fmtTime p.1,
     (withIndexFrom 0 (presentIndices hs playerVelColumns)).map
       (fun q => (playerNamesList.getD q.1 "", (cellFloat p.2 q.2).getD 0))⟩)

/-- Dashboard-variant `parseCSVData`; the `catch` branch returns three
empty arrays. -/
def dashboardParseCSVData : Option String → ChartData
  | none => ⟨[], [], []⟩
  | some t =>
    ⟨dashboardVelocityOverTime (headersOf t) (dataRowsOf t),
     (withIndexFrom 0 playerNamesList).map
       (fun q => (q.2,
         (hitCounts (findColumn (headersOf t) "player_ball_hit") (dataRowsOf t)).tally
           ((q.1 : ℤ) + 1))),
     playerNamesList⟩

/-! ### Spec-side (specification-worded) definitions, for comparison -/

/-- The spec's reading of an entity's velocity stream: the parseable values
of that player's OWN velocity column (player `p` is 0-based here). -/
def specEntityVelocityValues (t : String) (p : ℕ) : List ℚ :=
  (dataRowsOf t).filterMap
    (fun vs => cellFloat vs (findColumn (headersOf t) (playerVelColumns.getD p "")))

/-- CSV input distinguishing sum-vs-count semantics for `bounceCount`. -/
def csvBounceExample : String := "ball_bounce\n2\n1"

/-- CSV input whose header names only player 2's velocity column. -/
def csvShiftExample : String := "player2_Vnorm\n4"

/-- CSV input with ball velocity/acceleration columns and ten data rows, so
that row 10 is sampled. -/
def csvSampleExample : String :=
  "ball_Vnorm,ball_Anorm\n1,1\n1,1\n1,1\n1,1\n1,1\n1,1\n1,1\n1,1\n1,1\n1,1"

/-- CSV input in which all four player velocity columns are present. -/
def csvAllVel : String :=
  "player1_Vnorm,player2_Vnorm,player3_Vnorm,player4_Vnorm\n1,2,3,4"

/-! ### Basic lemmas about the accumulation patterns -/

theorem foldl_append_toList (f : α → Option β) (l : List α) (acc : List β) :
    l.foldl (fun a x => a ++ (f x).toList) acc = acc ++ l.filterMap f := by
  induction l generalizing acc with
  | nil => simp
  | cons x xs ih =>
    rw [List.foldl_cons, ih, List.filterMap_cons]
    cases f x <;> simp

theorem pushCollect_eq_filterMap (f : List String → Option ℚ) (rows : List (List String)) :
    pushCollect f rows = rows.filterMap f := by
  simpa using foldl_append_toList f rows []

theorem jsSum_eq_sum (l : List ℚ) : jsSum l = l.sum := by
  induction l with
  | nil => rfl
  | cons x xs ih =>
    rw [List.sum_cons, ← ih]
    unfold jsSum
    rw [List.foldl_cons]
    have h : ∀ (a : ℚ) (t : List ℚ), t.foldl (· + ·) a = a + t.foldl (· + ·) 0 := by
      intro a t
      induction t generalizing a with
      | nil => simp
      | cons y ys ihy => rw [List.foldl_cons, List.foldl_cons, ihy (a + y), ihy (0 + y)]; ring
    rw [h]
    simp

theorem length_filterMap_eq_countP (f : α → Option β) (l : List α) :
    (l.filterMap f).length = l.countP (fun x => (f x).isSome) := by
  induction l with
  | nil => simp
  | cons x xs ih =>
    rw [List.filterMap_cons, List.countP_cons]
    cases h : f x <;> simp [h, ih]

theorem cellFloatGuarded_eq_cellFloat (vs : List String) (idx : ℤ) :
    cellFloatGuarded vs idx = cellFloat vs idx := by
  unfold cellFloatGuarded cellFloat
  cases h : getCell vs idx with
  | none => rfl
  | some s =>
    by_cases hs : s = "" <;> simp [hs]
    rfl

theorem withIndexFrom_countP (l : List α) (f : ℕ → α → Bool) :
    ∀ n, (withIndexFrom n l).countP (fun p => f p.1 p.2)
      = (l.zip (List.range' n l.length)).countP (fun p => f p.2 p.1) := by
  induction l with
  | nil => intro n; simp [withIndexFrom]
  | cons x xs ih =>
    intro n
    rw [withIndexFrom, List.countP_cons, List.length_cons, List.range'_succ,
      List.zip_cons_cons, List.countP_cons, ih (n + 1)]

theorem withIndexFrom_filter_fst_length (l : List α) (f : ℕ → Bool) :
    ∀ n, ((withIndexFrom n l).filter (fun p => f p.1)).length
      = ((List.range' n l.length).filter f).length := by
  induction l with
  | nil => intro n; simp [withIndexFrom]
  | cons x xs ih =>
    intro n
    rw [withIndexFrom, List.length_cons, List.range'_succ, List.filter_cons, List.filter_cons]
    cases f n <;> simp [ih (n + 1)]

theorem count_mod10_one : ∀ N : ℕ,
    ((List.range' 1 N).filter (fun i => decide (i % 10 = 1))).length = (N + 9) / 10 := by
  intro N
  induction N with
  | zero => rfl
  | succ n ih =>
    rw [List.range'_1_concat, List.filter_append, List.length_append, ih]
    by_cases h : (1 + n) % 10 = 1
    · rw [List.filter_cons_of_pos (by simpa using h)]
      simp only [List.filter_nil, List.length_cons, List.length_nil]
      omega
    · rw [List.filter_cons_of_neg (by simpa using h)]
      simp only [List.filter_nil, List.length_nil]
      omega

/-! ### Hit-count lemmas -/

theorem hitStep_tally (hitIdx : ℤ) (c : HitCounts) (vs : List String) (k : ℤ)
    (h1 : 1 ≤ k) (h4 : k ≤ 4) :
    (hitStep hitIdx c vs).tally k
      = c.tally k + (if rowHitValue hitIdx vs = some k then 1 else 0) := by
  cases h : rowHitValue hitIdx vs with
  | none => simp [hitStep, h]
  | some j =>
    simp only [hitStep, h]
    by_cases hj : 1 ≤ j ∧ j ≤ 4
    · rw [if_pos hj]
      obtain ⟨hj1, hj4⟩ := hj
      interval_cases j <;> interval_cases k <;>
        simp [HitCounts.bump, HitCounts.tally]
    · rw [if_neg hj]
      have hne : j ≠ k := by omega
      simp [hne]

theorem hitCounts_foldl_tally (hitIdx : ℤ) (k : ℤ) (h1 : 1 ≤ k) (h4 : k ≤ 4) :
    ∀ (rows : List (List String)) (c : HitCounts),
      (rows.foldl (hitStep hitIdx) c).tally k
        = c.tally k + rows.countP (fun vs => decide (rowHitValue hitIdx vs = some k)) := by
  intro rows
  induction rows with
  | nil => intro c; simp
  | cons vs rest ih =>
    intro c
    rw [List.foldl_cons, ih, List.countP_cons, hitStep_tally hitIdx c vs k h1 h4]
    by_cases h : rowHitValue hitIdx vs = some k
    · simp [h]
      omega
    · simp [h]

theorem hitStep_eq_self (hitIdx : ℤ) (c : HitCounts) (vs : List String)
    (h : ∀ j : ℤ, rowHitValue hitIdx vs = some j → j < 1 ∨ 4 < j) :
    hitStep hitIdx c vs = c := by
  cases hr : rowHitValue hitIdx vs with
  | none => simp [hitStep, hr]
  | some j =>
    have := h j hr
    simp only [hitStep, hr]
    rw [if_neg (by omega)]

/-! ### Sampler lemmas -/

theorem cellFloat_neg (vs : List String) (idx : ℤ) (h : idx < 0) :
    cellFloat vs idx = none := by
  simp [cellFloat, getCell, h]

theorem sampleStep_isSome (velIdx accIdx : ℤ) (i : ℕ) (vs : List String) :
    (sampleStep velIdx accIdx i vs).isSome
      = (decide (i % 10 = 0) && (cellFloat vs velIdx).isSome && (cellFloat vs accIdx).isSome) := by
  rw [sampleStep]
  by_cases h10 : i % 10 = 0
  · by_cases hv : velIdx = -1
    · subst hv
      rw [cellFloat_neg vs (-1) (by norm_num)]
      simp [h10]
    · by_cases ha : accIdx = -1
      · subst ha
        rw [cellFloat_neg vs (-1) (by norm_num)]
        simp [h10, hv]
      · rw [if_pos ⟨h10, hv, ha⟩]
        cases cellFloat vs velIdx <;> cases cellFloat vs accIdx <;> simp [h10]
  · rw [if_neg (by tauto)]
    simp [h10]

theorem ballVelocityOverTime_eq_filterMap (velIdx accIdx : ℤ) (rows : List (List String)) :
    ballVelocityOverTime velIdx accIdx rows
      = (withIndexFrom 1 rows).filterMap (fun p => sampleStep velIdx accIdx p.1 p.2) := by
  simpa using
    foldl_append_toList (fun p : ℕ × List String => sampleStep velIdx accIdx p.1 p.2)
      (withIndexFrom 1 rows) []

/-! ### Heatmap lemmas -/

theorem nearb_self (r : ℚ) (p : Pos) : nearb r p p = true := by
  simp only [nearb, sub_self, decide_eq_true_eq]
  have : ((0 : ℚ)) ^ 2 + (0 : ℚ) ^ 2 = 0 := by norm_num
  rw [this]
  positivity

theorem nearb_comm (r : ℚ) (p q : Pos) : nearb r p q = nearb r q p := by
  have hx : (p.x - q.x) ^ 2 = (q.x - p.x) ^ 2 := by ring
  have hy : (p.y - q.y) ^ 2 = (q.y - p.y) ^ 2 := by ring
  simp [nearb, hx, hy]

theorem rawCount_pos (r : ℚ) (pts : List Pos) (p : Pos) (h : p ∈ pts) :
    0 < rawCount r pts p := by
  have hm : p ∈ pts.filter (nearb r p) := List.mem_filter.mpr ⟨h, nearb_self r p⟩
  exact List.length_pos.mpr (List.ne_nil_of_mem hm)

theorem le_foldr_max {x b : ℚ} : ∀ {l : List ℚ}, x ∈ l → x ≤ l.foldr max b := by
  intro l
  induction l with
  | nil => intro h; cases h
  | cons y ys ih =>
    intro h
    rw [List.foldr_cons]
    rcases List.mem_cons.mp h with rfl | hmem
    · exact le_max_left _ _
    · exact (ih hmem).trans (le_max_right _ _)

theorem foldr_max_le {b c : ℚ} (hb : b ≤ c) :
    ∀ {l : List ℚ}, (∀ y ∈ l, y ≤ c) → l.foldr max b ≤ c := by
  intro l
  induction l with
  | nil => intro _; simpa using hb
  | cons y ys ih =>
    intro h
    rw [List.foldr_cons]
    exact max_le (h y (List.mem_cons_self y ys)) (ih fun z hz => h z (List.mem_cons_of_mem y hz))

theorem maxIntensity_rawHeat (r : ℚ) (pts : List Pos) :
    maxIntensity (rawHeat r pts)
      = (pts.map (fun p => ((rawCount r pts p : ℕ) : ℚ))).foldr max 0 := by
  rw [maxIntensity, rawHeat, List.map_map]
  rfl

theorem one_le_maxIntensity (r : ℚ) (pts : List Pos) (h : pts ≠ []) :
    1 ≤ maxIntensity (rawHeat r pts) := by
  obtain ⟨p, hp⟩ := List.exists_mem_of_ne_nil pts h
  rw [maxIntensity_rawHeat]
  have h1 : (1 : ℚ) ≤ ((rawCount r pts p : ℕ) : ℚ) := by
    exact_mod_cast rawCount_pos r pts p hp
  exact h1.trans (le_foldr_max (List.mem_map_of_mem _ hp))

theorem rawCount_le_max (r : ℚ) (pts : List Pos) (p : Pos) (hp : p ∈ pts) :
    ((rawCount r pts p : ℕ) : ℚ) ≤ maxIntensity (rawHeat r pts) := by
  rw [maxIntensity_rawHeat]
  exact le_foldr_max (List.mem_map_of_mem _ hp)

theorem isolated_rawCount (r : ℚ) :
    ∀ pts : List Pos, pts.Pairwise (fun a b => nearb r a b = false) →
      ∀ p ∈ pts, rawCount r pts p = 1 := by
  intro pts
  induction pts with
  | nil => intro _ p hp; cases hp
  | cons q rest ih =>
    intro hpw p hp
    rw [List.pairwise_cons] at hpw
    obtain ⟨hq, hrest⟩ := hpw
    rcases List.mem_cons.mp hp with rfl | hmem
    · show (List.filter (nearb r p) (p :: rest)).length = 1
      rw [List.filter_cons, nearb_self]
      have hnil : rest.filter (nearb r p) = [] :=
        List.filter_eq_nil_iff.mpr (fun x hx => by rw [hq x hx]; exact Bool.false_ne_true)
      simp [hnil]
    · show (List.filter (nearb r p) (q :: rest)).length = 1
      rw [List.filter_cons]
      have hfalse : nearb r p q = false := by rw [nearb_comm]; exact hq p hmem
      rw [hfalse]
      exact ih hrest p hmem

theorem playerHeatmap_eq_map (r : ℚ) (pts : List Pos) (h : pts ≠ []) :
    playerHeatmap r pts
      = pts.map (fun p =>
          ⟨p.x, p.y, ((rawCount r pts p : ℕ) : ℚ) / maxIntensity (rawHeat r pts)⟩) := by
  have hm : 0 < maxIntensity (rawHeat r pts) :=
    lt_of_lt_of_le one_pos (one_le_maxIntensity r pts h)
  rw [playerHeatmap, if_pos hm, rawHeat, List.map_map]
  rfl

theorem ballHeatmap_eq_map (r : ℚ) (pts : List Pos) (h : pts ≠ []) :
    ballHeatmap r pts
      = pts.map (fun p =>
          ⟨p.x, p.y, ((rawCount r pts p : ℕ) : ℚ) / maxIntensity (rawHeat r pts)⟩) := by
  have hm : 0 < maxIntensity (rawHeat r pts) :=
    lt_of_lt_of_le one_pos (one_le_maxIntensity r pts h)
  rw [ballHeatmap]
  simp only [hm, if_true]
  rw [rawHeat, List.map_map]
  rfl

theorem rawCount_singleton (r : ℚ) (p : Pos) : rawCount r [p] p = 1 := by
  show (List.filter (nearb r p) [p]).length = 1
  rw [List.filter_cons, nearb_self]
  rfl

theorem maxIntensity_singleton (r : ℚ) (p : Pos) : maxIntensity (rawHeat r [p]) = 1 := by
  rw [maxIntensity_rawHeat, List.map_cons, List.map_nil, List.foldr_cons, List.foldr_nil,
    rawCount_singleton]
  norm_num

/-! ### Column-resolution lemmas -/

theorem findColumnFrom_congr (q c1 c2 : String)
    (h : (jsToLower (jsTrim c1) == jsToLower q) = (jsToLower (jsTrim c2) == jsToLower q)) :
    ∀ (pre suf : List String) (k : ℤ),
      findColumnFrom q (pre ++ c1 :: suf) k = findColumnFrom q (pre ++ c2 :: suf) k := by
  intro pre
  induction pre with
  | nil =>
    intro suf k
    rw [List.nil_append, List.nil_append, findColumnFrom, findColumnFrom, h]
  | cons x xs ih =>
    intro suf k
    rw [List.cons_append, List.cons_append, findColumnFrom, findColumnFrom]
    split
    · rfl
    · exact ih suf (k + 1)

theorem findColumnFrom_eq_neg_one (q : String) :
    ∀ (hs : List String) (k : ℤ),
      (∀ h ∈ hs, jsToLower (jsTrim h) ≠ jsToLower q) → findColumnFrom q hs k = -1 := by
  intro hs
  induction hs with
  | nil => intro k _; rfl
  | cons x xs ih =>
    intro k hall
    rw [findColumnFrom]
    have hx : (jsToLower (jsTrim x) == jsToLower q) = false := by
      simpa using hall x (List.mem_cons_self x xs)
    rw [hx]
    exact ih (k + 1) (fun h hm => hall h (List.mem_cons_of_mem x hm))

/-! ### Mean lemma -/

theorem jsMean_eq (l : List ℚ) :
    jsMean l = if 0 < l.length then l.sum / (l.length : ℚ) else 0 := by
  rw [jsMean, jsSum_eq_sum]

/-! ### Claim theorems -/

/-- C3 (amended): on a fetch failure (network throw, landing in `catch`),
the analytics variant returns the zeroed ball record with an empty player
list, and the dashboard variant returns three EMPTY arrays (not zero-filled
hit entries and not the four player names); neither throws. -/
theorem claim_C3_catch_results :
    analyticsParseCSVData none = ⟨[], emptyBallData⟩
      ∧ dashboardParseCSVData none = ⟨[], [], []⟩ :=
  ⟨rfl, rfl⟩

/-- C3 counterexample: the claim says the dashboard variant yields
`playerHitsData` with four zero entries and the four player names on fetch
failure; the `catch` branch actually returns empty arrays for both. -/
theorem claim_C3_counterexample :
    (dashboardParseCSVData none).playerHitsData ≠ playerNamesList.map (fun n => (n, 0))
      ∧ (dashboardParseCSVData none).playerNames ≠ playerNamesList := by
  constructor <;> decide

/-- C4: for every CSV input, `bounceCount` is the arithmetic sum of the
`ball_bounce` values that parse; on the distinguishing input
`"ball_bounce\n2\n1"` the sum is `3` while both the count of parseable
entries and the count of nonzero entries are `2`. -/
theorem claim_C4_bounce_sum :
    (∀ t : String, (analyticsBall t).bounceCount
        = ((dataRowsOf t).filterMap
            (fun vs => cellFloat vs (findColumn (headersOf t) "ball_bounce"))).sum)
    ∧ (analyticsBall csvBounceExample).bounceCount = 3
    ∧ ((dataRowsOf csvBounceExample).filterMap
          (fun vs => cellFloat vs (findColumn (headersOf csvBounceExample) "ball_bounce"))).length
        = 2
    ∧ ((dataRowsOf csvBounceExample).filterMap
          (fun vs => cellFloat vs (findColumn (headersOf csvBounceExample) "ball_bounce"))).countP
          (fun q => decide (q ≠ 0)) = 2
    ∧ (3 : ℚ) ≠ 2 := by
  refine ⟨?_, ?_, ?_, ?_, by norm_num⟩
  · intro t
    show jsSum (pushCollect
        (fun vs => cellFloatGuarded vs (findColumn (headersOf t) "ball_bounce"))
        (dataRowsOf t)) = _
    rw [pushCollect_eq_filterMap, jsSum_eq_sum]
    have hfun : (fun vs => cellFloatGuarded vs (findColumn (headersOf t) "ball_bounce"))
        = fun vs => cellFloat vs (findColumn (headersOf t) "ball_bounce") :=
      funext (fun vs => cellFloatGuarded_eq_cellFloat vs _)
    rw [hfun]
  · with_unfolding_all decide
  · with_unfolding_all decide
  · with_unfolding_all decide

/-- C7: slot `k` of the hit tally is incremented on exactly the rows whose
`player_ball_hit` cell parses (as a JS integer) to `k`; rows that are
unparseable or outside `1..4` change nothing, and the total equals the
count of rows parsing to `k`. -/
theorem claim_C7_hit_increment (hitIdx : ℤ) (rows : List (List String)) (k : ℤ)
    (h1 : 1 ≤ k) (h4 : k ≤ 4) :
    (∀ (c : HitCounts) (vs : List String),
        (hitStep hitIdx c vs).tally k
          = c.tally k + (if rowHitValue hitIdx vs = some k then 1 else 0))
    ∧ (∀ (c : HitCounts) (vs : List String),
        (∀ j : ℤ, rowHitValue hitIdx vs = some j → j < 1 ∨ 4 < j) →
          hitStep hitIdx c vs = c)
    ∧ (hitCounts hitIdx rows).tally k
        = rows.countP (fun vs => decide (rowHitValue hitIdx vs = some k)) := by
  refine ⟨fun c vs => hitStep_tally hitIdx c vs k h1 h4,
    fun c vs h => hitStep_eq_self hitIdx c vs h, ?_⟩
  rw [hitCounts, hitCounts_foldl_tally hitIdx k h1 h4 rows ⟨0, 0, 0, 0⟩]
  have h0 : (⟨0, 0, 0, 0⟩ : HitCounts).tally k = 0 := by
    rw [HitCounts.tally]
    split_ifs <;> rfl
  rw [h0, Nat.zero_add]

/-- Witness for C7 at a concrete tally: player 3 is hit on two of four rows. -/
theorem claim_C7_hit_increment_witness :
    ((hitCounts 0 [["2"], ["3"], ["x"], ["3"]]).tally 3
        = [["2"], ["3"], ["x"], ["3"]].countP
            (fun vs => decide (rowHitValue 0 vs = some 3)))
      ∧ (hitCounts 0 [["2"], ["3"], ["x"], ["3"]]).tally 3 = 2 :=
  ⟨(claim_C7_hit_increment 0 [["2"], ["3"], ["x"], ["3"]] 3 (by norm_num) (by norm_num)).2.2,
   by decide⟩

/-- C8: header fields are trimmed and lower-cased before comparison, so a
header cell `" Player1_Vnorm "` resolves exactly like `"player1_vnorm"`,
and a name matching no header resolves to the `-1` sentinel. -/
theorem claim_C8_column_resolution :
    (∀ pre suf : List String,
        findColumn (pre ++ " Player1_Vnorm " :: suf) "player1_Vnorm"
          = findColumn (pre ++ "player1_vnorm" :: suf) "player1_Vnorm")
    ∧ (∀ (hs : List String) (name : String),
        (∀ h ∈ hs, jsToLower (jsTrim h) ≠ jsToLower name) → findColumn hs name = -1) := by
  constructor
  · intro pre suf
    exact findColumnFrom_congr "player1_Vnorm" " Player1_Vnorm " "player1_vnorm"
      (by decide) pre suf 0
  · intro hs name hall
    exact findColumnFrom_eq_neg_one name hs 0 hall

/-- Witness for C8: a concrete padded/cased header resolves to index 0, and
a missing name resolves to `-1`. -/
theorem claim_C8_column_resolution_witness :
    (findColumn ([] ++ " Player1_Vnorm " :: []) "player1_Vnorm"
        = findColumn ([] ++ "player1_vnorm" :: []) "player1_Vnorm")
      ∧ findColumn ["foo"] "bar" = -1 :=
  ⟨claim_C8_column_resolution.1 [] [],
   claim_C8_column_resolution.2 ["foo"] "bar" (by decide)⟩

/-- C1 (amended): the analytics sampler emits one entry per data row `i`
with `i % 10 = 0` whose ball velocity and acceleration both parse, so its
length is exactly that count; the dashboard sampler instead visits rows
`i % 10 = 1` and emits an entry for EVERY visited row (zero-filling
unparseable fields), so its length is `ceil(N / 10)` regardless of the
data. -/
theorem claim_C1_sampler_length (t : String) :
    (analyticsBall t).velocityOverTime.length
      = (withIndexFrom 1 (dataRowsOf t)).countP
          (fun p => decide (p.1 % 10 = 0)
            && (cellFloat p.2 (findColumn (headersOf t) "ball_vnorm")).isSome
            && (cellFloat p.2 (findColumn (headersOf t) "ball_anorm")).isSome)
    ∧ (dashboardParseCSVData (some t)).velocityOverTime.length
      = ((dataRowsOf t).length + 9) / 10 := by
  constructor
  · show (ballVelocityOverTime (findColumn (headersOf t) "ball_vnorm")
      (findColumn (headersOf t) "ball_anorm") (dataRowsOf t)).length = _
    rw [ballVelocityOverTime_eq_filterMap, length_filterMap_eq_countP]
    exact List.countP_congr (fun p _ => by rw [sampleStep_isSome])
  · show (dashboardVelocityOverTime (headersOf t) (dataRowsOf t)).length = _
    rw [dashboardVelocityOverTime, List.length_map,
      withIndexFrom_filter_fst_length (dataRowsOf t) (fun i => decide (i % 10 = 1)) 1,
      count_mod10_one]

/-- C1 counterexample: on the CSV `"h\nx"` (one data row, row 1), no data
row satisfies `i % 10 = 0`, yet the dashboard sampler emits one entry —
the claimed output length (count of such rows, never more) is violated. -/
theorem claim_C1_counterexample :
    (dashboardParseCSVData (some "h\nx")).velocityOverTime.length = 1
      ∧ (withIndexFrom 1 (dataRowsOf "h\nx")).countP (fun p => decide (p.1 % 10 = 0)) = 0 := by
  constructor <;> with_unfolding_all decide

/-- C2 (amended): because the density count includes the point itself, the
maximum raw count of a non-empty position set is never `0`; in the
degenerate single-point case (and any mutually isolated set) the point is
normalised to intensity exactly `1`, not left at `0`. -/
theorem claim_C2_isolated_normalisation (r : ℚ) (pts : List Pos) (p : Pos) :
    (pts ≠ [] → 0 < maxIntensity (rawHeat r pts))
    ∧ playerHeatmap r [p] = [⟨p.x, p.y, 1⟩]
    ∧ ballHeatmap r [p] = [⟨p.x, p.y, 1⟩] := by
  refine ⟨fun h => lt_of_lt_of_le one_pos (one_le_maxIntensity r pts h), ?_, ?_⟩
  · rw [playerHeatmap_eq_map r [p] (List.cons_ne_nil p []), List.map_cons, List.map_nil,
      rawCount_singleton, maxIntensity_singleton]
    norm_num
  · rw [ballHeatmap_eq_map r [p] (List.cons_ne_nil p []), List.map_cons, List.map_nil,
      rawCount_singleton, maxIntensity_singleton]
    norm_num

/-- Witness for C2 at radius `1` and the singleton set `[(0, 0)]`. -/
theorem claim_C2_isolated_normalisation_witness :
    (0 : ℚ) < maxIntensity (rawHeat 1 [⟨0, 0⟩])
      ∧ playerHeatmap 1 [⟨0, 0⟩] = [⟨0, 0, 1⟩] := by
  have h := claim_C2_isolated_normalisation 1 [⟨0, 0⟩] ⟨0, 0⟩
  exact ⟨h.1 (List.cons_ne_nil _ _), h.2.1⟩

/-- C2 counterexample: the single-point set is isolated beyond the radius
from all others (vacuously), yet its intensity is `1`, not `0`. -/
theorem claim_C2_counterexample :
    ¬ ∀ d ∈ playerHeatmap 1 [(⟨0, 0⟩ : Pos)], d.intensity = 0 := by
  intro h
  have hlist : playerHeatmap 1 [(⟨0, 0⟩ : Pos)] = [⟨0, 0, 1⟩] := by
    with_unfolding_all decide
  have h1 := h ⟨0, 0, 1⟩ (by rw [hlist]; exact List.mem_singleton_self _)
  norm_num at h1

/-- C5: for a non-empty position set, every produced intensity lies in
`[0, 1]` (both normalisation variants), and any point whose raw neighbour
count equals the set's maximum raw count gets intensity exactly `1`. -/
theorem claim_C5_intensity_bounds (r : ℚ) (pts : List Pos) (h : pts ≠ []) :
    (∀ d ∈ playerHeatmap r pts,
        0 ≤ d.intensity ∧ d.intensity ≤ 1
          ∧ (((rawCount r pts ⟨d.x, d.y⟩ : ℕ) : ℚ) = maxIntensity (rawHeat r pts) →
              d.intensity = 1))
    ∧ (∀ d ∈ ballHeatmap r pts,
        0 ≤ d.intensity ∧ d.intensity ≤ 1
          ∧ (((rawCount r pts ⟨d.x, d.y⟩ : ℕ) : ℚ) = maxIntensity (rawHeat r pts) →
              d.intensity = 1)) := by
  have hm : 0 < maxIntensity (rawHeat r pts) :=
    lt_of_lt_of_le one_pos (one_le_maxIntensity r pts h)
  have key : ∀ d ∈ pts.map (fun p =>
      (⟨p.x, p.y, ((rawCount r pts p : ℕ) : ℚ) / maxIntensity (rawHeat r pts)⟩ : HeatPt)),
      0 ≤ d.intensity ∧ d.intensity ≤ 1
        ∧ (((rawCount r pts ⟨d.x, d.y⟩ : ℕ) : ℚ) = maxIntensity (rawHeat r pts) →
            d.intensity = 1) := by
    intro d hd
    rcases List.mem_map.mp hd with ⟨p, hp, rfl⟩
    refine ⟨div_nonneg (Nat.cast_nonneg _) hm.le,
      (div_le_one hm).mpr (rawCount_le_max r pts p hp), ?_⟩
    intro hc
    have : (⟨p.x, p.y⟩ : Pos) = p := rfl
    rw [this] at hc
    show ((rawCount r pts p : ℕ) : ℚ) / maxIntensity (rawHeat r pts) = 1
    rw [hc]
    exact div_self (ne_of_gt hm)
  exact ⟨by rw [playerHeatmap_eq_map r pts h]; exact key,
         by rw [ballHeatmap_eq_map r pts h]; exact key⟩

/-- Witness for C5 at radius `1` and the singleton set `[(0, 0)]`. -/
theorem claim_C5_intensity_bounds_witness :
    0 ≤ (⟨0, 0, 1⟩ : HeatPt).intensity ∧ (⟨0, 0, 1⟩ : HeatPt).intensity ≤ 1
      ∧ (((rawCount 1 [⟨0, 0⟩] ⟨(⟨0, 0, 1⟩ : HeatPt).x, (⟨0, 0, 1⟩ : HeatPt).y⟩ : ℕ) : ℚ)
            = maxIntensity (rawHeat 1 [⟨0, 0⟩]) →
          (⟨0, 0, 1⟩ : HeatPt).intensity = 1) :=
  (claim_C5_intensity_bounds 1 [⟨0, 0⟩] (List.cons_ne_nil _ _)).1 ⟨0, 0, 1⟩
    (by with_unfolding_all decide)

/-- C10: self-inclusion makes every raw count at least `1` on a non-empty
set, the maximum raw count at least `1`, normalisation is always performed
(the guarded branch is taken), every produced intensity is strictly
positive, and a pairwise-isolated set (single point included) gets
intensity exactly `1` everywhere. -/
theorem claim_C10_self_inclusion (r : ℚ) (pts : List Pos) (h : pts ≠ []) :
    (∀ p ∈ pts, 1 ≤ rawCount r pts p)
    ∧ 1 ≤ maxIntensity (rawHeat r pts)
    ∧ playerHeatmap r pts
        = (rawHeat r pts).map
            (fun d => ⟨d.x, d.y, d.intensity / maxIntensity (rawHeat r pts)⟩)
    ∧ (∀ d ∈ playerHeatmap r pts, 0 < d.intensity)
    ∧ (∀ d ∈ ballHeatmap r pts, 0 < d.intensity)
    ∧ (pts.Pairwise (fun a b => nearb r a b = false) →
        (∀ d ∈ playerHeatmap r pts, d.intensity = 1)
          ∧ (∀ d ∈ ballHeatmap r pts, d.intensity = 1)) := by
  have hm : 0 < maxIntensity (rawHeat r pts) :=
    lt_of_lt_of_le one_pos (one_le_maxIntensity r pts h)
  have keyPos : ∀ d ∈ pts.map (fun p =>
      (⟨p.x, p.y, ((rawCount r pts p : ℕ) : ℚ) / maxIntensity (rawHeat r pts)⟩ : HeatPt)),
      0 < d.intensity := by
    intro d hd
    rcases List.mem_map.mp hd with ⟨p, hp, rfl⟩
    have hc : (0 : ℚ) < ((rawCount r pts p : ℕ) : ℚ) := by
      exact_mod_cast rawCount_pos r pts p hp
    exact div_pos hc hm
  refine ⟨fun p hp => rawCount_pos r pts p hp, one_le_maxIntensity r pts h, ?_, ?_, ?_, ?_⟩
  · rw [playerHeatmap, if_pos hm]
  · rw [playerHeatmap_eq_map r pts h]; exact keyPos
  · rw [ballHeatmap_eq_map r pts h]; exact keyPos
  · intro hiso
    have hcount := isolated_rawCount r pts hiso
    have hmax : maxIntensity (rawHeat r pts) = 1 := by
      refine le_antisymm ?_ (one_le_maxIntensity r pts h)
      rw [maxIntensity_rawHeat]
      refine foldr_max_le (by norm_num) ?_
      intro y hy
      rcases List.mem_map.mp hy with ⟨p, hp, rfl⟩
      rw [hcount p hp]
      norm_num
    have keyOne : ∀ d ∈ pts.map (fun p =>
        (⟨p.x, p.y, ((rawCount r pts p : ℕ) : ℚ) / maxIntensity (rawHeat r pts)⟩ : HeatPt)),
        d.intensity = 1 := by
      intro d hd
      rcases List.mem_map.mp hd with ⟨p, hp, rfl⟩
      show ((rawCount r pts p : ℕ) : ℚ) / maxIntensity (rawHeat r pts) = 1
      rw [hcount p hp, hmax]
      norm_num
    exact ⟨by rw [playerHeatmap_eq_map r pts h]; exact keyOne,
           by rw [ballHeatmap_eq_map r pts h]; exact keyOne⟩

/-- Witness for C10 at radius `1` and the isolated pair `[(0,0), (5,5)]`. -/
theorem claim_C10_self_inclusion_witness :
    1 ≤ maxIntensity (rawHeat 1 [⟨0, 0⟩, ⟨5, 5⟩])
      ∧ (⟨0, 0, 1⟩ : HeatPt).intensity = 1 := by
  have h := claim_C10_self_inclusion 1 [⟨0, 0⟩, ⟨5, 5⟩] (List.cons_ne_nil _ _)
  refine ⟨h.2.1, ?_⟩
  exact (h.2.2.2.2.2 (by with_unfolding_all decide)).1 ⟨0, 0, 1⟩
    (by with_unfolding_all decide)

/-- C9: every emitted sample comes from a data row `i` with `i % 10 = 0`
and carries the label `fmtTime i`, where `fmtTime i` is
`floor((i-1)/30)` seconds rendered as `minutes:seconds` with the seconds
zero-padded to two digits; in particular rows 10 and 30 are both labelled
`"0:00"`. -/
theorem claim_C9_time_labels :
    (∀ (t : String) (e : BallSample), e ∈ (analyticsBall t).velocityOverTime →
        ∃ p : ℕ × List String, p ∈ withIndexFrom 1 (dataRowsOf t) ∧ p.1 % 10 = 0
          ∧ e.time = fmtTime p.1)
    ∧ (∀ i : ℕ, fmtTime i
        = toString (((i - 1) / 30) / 60) ++ ":"
          ++ (if ((i - 1) / 30) % 60 < 10 then "0" ++ toString (((i - 1) / 30) % 60)
              else toString (((i - 1) / 30) % 60)))
    ∧ fmtTime 10 = "0:00" ∧ fmtTime 30 = "0:00" := by
  refine ⟨?_, ?_, by decide, by decide⟩
  · intro t e he
    have he' : e ∈ ballVelocityOverTime (findColumn (headersOf t) "ball_vnorm")
        (findColumn (headersOf t) "ball_anorm") (dataRowsOf t) := he
    rw [ballVelocityOverTime_eq_filterMap] at he'
    rcases List.mem_filterMap.mp he' with ⟨p, hp, heq⟩
    rw [sampleStep] at heq
    by_cases hc : p.1 % 10 = 0 ∧ findColumn (headersOf t) "ball_vnorm" ≠ -1
        ∧ findColumn (headersOf t) "ball_anorm" ≠ -1
    · rw [if_pos hc] at heq
      refine ⟨p, hp, hc.1, ?_⟩
      cases hv : cellFloat p.2 (findColumn (headersOf t) "ball_vnorm") with
      | none => rw [hv] at heq; exact absurd heq (by simp)
      | some v =>
        cases ha : cellFloat p.2 (findColumn (headersOf t) "ball_anorm") with
        | none => rw [hv, ha] at heq; exact absurd heq (by simp)
        | some a =>
          rw [hv, ha] at heq
          obtain rfl := Option.some.inj heq
          rfl
    · rw [if_neg hc] at heq
      exact absurd heq (by simp)
  · intro i
    rw [fmtTime, padSeconds]
    split_ifs
    · rfl
    · rfl

/-- Witness for C9: the sample emitted for row 10 of a ten-row CSV. -/
theorem claim_C9_time_labels_witness :
    ∃ p : ℕ × List String, p ∈ withIndexFrom 1 (dataRowsOf csvSampleExample) ∧ p.1 % 10 = 0
      ∧ (⟨"0:00", 1, 1⟩ : BallSample).time = fmtTime p.1 :=
  claim_C9_time_labels.1 csvSampleExample ⟨"0:00", 1, 1⟩ (by with_unfolding_all decide)

/-- C6 (amended): slot `p`'s `avgVelocity` is the arithmetic mean (0 when
empty) of the values of the `p`-th PRESENT velocity column — columns are
compacted before assignment, so slots align with the players' own columns
only when all four columns are present; the ball's `avgVelocity` is the
mean of the parseable `ball_Vnorm` values, `0` when there are none. -/
theorem claim_C6_avg_velocity (t : String) :
    (∀ p : Fin 4,
        ∃ pd : CSVPlayerData, (analyticsPlayers t).get? (p : ℕ) = some pd
          ∧ pd.avgVelocity =
              (if 0 < (slotValues (headersOf t) (dataRowsOf t) playerVelColumns (p : ℕ)).length
               then (slotValues (headersOf t) (dataRowsOf t) playerVelColumns (p : ℕ)).sum
                  / ((slotValues (headersOf t) (dataRowsOf t) playerVelColumns (p : ℕ)).length : ℚ)
               else 0))
    ∧ ((∀ c ∈ playerVelColumns, findColumn (headersOf t) c ≠ -1) →
        ∀ p : Fin 4, slotValues (headersOf t) (dataRowsOf t) playerVelColumns (p : ℕ)
          = specEntityVelocityValues t (p : ℕ))
    ∧ (analyticsBall t).avgVelocity =
        (if 0 < ((dataRowsOf t).filterMap
              (fun vs => cellFloat vs (findColumn (headersOf t) "ball_vnorm"))).length
         then ((dataRowsOf t).filterMap
              (fun vs => cellFloat vs (findColumn (headersOf t) "ball_vnorm"))).sum
            / (((dataRowsOf t).filterMap
              (fun vs => cellFloat vs (findColumn (headersOf t) "ball_vnorm"))).length : ℚ)
         else 0) := by
  refine ⟨?_, ?_, ?_⟩
  · intro p
    fin_cases p <;> exact ⟨_, rfl, jsMean_eq _⟩
  · intro hall
    have hpres : presentIndices (headersOf t) playerVelColumns
        = playerVelColumns.map (findColumn (headersOf t)) := by
      rw [presentIndices]
      refine List.filter_eq_self.mpr ?_
      intro x hx
      rcases List.mem_map.mp hx with ⟨c, hc, rfl⟩
      simpa using hall c hc
    have key : ∀ n : ℕ,
        slotValues (headersOf t) (dataRowsOf t) playerVelColumns n
          = (match (playerVelColumns.map (findColumn (headersOf t))).get? n with
             | some idx => pushCollect (fun vs => cellFloat vs idx) (dataRowsOf t)
             | none => []) := by
      intro n
      rw [slotValues, hpres]
    intro p
    fin_cases p <;>
      · rw [key, specEntityVelocityValues]
        exact pushCollect_eq_filterMap _ _
  · show jsMean (pushCollect
        (fun vs => cellFloatGuarded vs (findColumn (headersOf t) "ball_vnorm"))
        (dataRowsOf t)) = _
    have hfun : (fun vs => cellFloatGuarded vs (findColumn (headersOf t) "ball_vnorm"))
        = fun vs => cellFloat vs (findColumn (headersOf t) "ball_vnorm") :=
      funext (fun vs => cellFloatGuarded_eq_cellFloat vs _)
    rw [pushCollect_eq_filterMap, hfun, jsMean_eq]

/-- Witness for C6 on a CSV where all four velocity columns are present:
slot 1 coincides with player 2's own column. -/
theorem claim_C6_avg_velocity_witness :
    slotValues (headersOf csvAllVel) (dataRowsOf csvAllVel) playerVelColumns 1
      = specEntityVelocityValues csvAllVel 1 :=
  (claim_C6_avg_velocity csvAllVel).2.1 (by with_unfolding_all decide) 1

/-- C6 counterexample: with only `player2_Vnorm` in the header, player 1's
record carries the mean of player 2's column (`4`), while player 1's own
velocity column contributes no parseable value, so the claimed mean is
`0 ≠ 4`. -/
theorem claim_C6_counterexample :
    ((analyticsPlayers csvShiftExample).get? 0).map (fun pd => pd.avgVelocity) = some 4
      ∧ specEntityVelocityValues csvShiftExample 0 = []
      ∧ (4 : ℚ) ≠ 0 := by
  refine ⟨?_, ?_, by norm_num⟩ <;> with_unfolding_all decide

end Vibora
